import Mathlib

/-!
Verification of the multi-agent log-analysis pipeline (j-raghavan/multi-agent-demo).

The development shallowly embeds the orchestration core of the repository:

* `src/agents/planner.py` — plan parsing (marker split, the worker-line pattern,
  role validation with fuzzy fallback);
* `src/agents/worker_factory.py` — worker creation, the worker prompt, the
  single-slot output update;
* `src/agents/critique.py`, `src/agents/judge.py` — the consensus and decision
  stages as single-key state updates, with the best-effort persistence sink;
* `src/main.py` — the fixed graph topology (planner, five parallel workers,
  critique, judge), the evidence reader, and `run_log_analysis`.

Python strings are modelled as `List Char` (or Lean `String` where convenient);
the text-generation collaborator is an input of each stage (an `Option String`
response, or a function from the prompt for the workers), with `none` standing
for a raised exception; `Option` propagation models exception propagation
through the graph executor.  Character-class primitives (`str.lower`, the
whitespace and digit classes) are modelled at ASCII fidelity, which is exact on
every string the repository manipulates.
-/

namespace MultiAgentDemo

/-! ## Python string primitives -/

/-- Whitespace set of Python `str.strip` and of the regex class `\s`
(ASCII fragment). -/
def pyIsSpace (c : Char) : Bool :=
  c = ' ' || c = '\t' || c = '\n' || c = '\r' || c = '\x0b' || c = '\x0c'

/-- Python `s.strip()`: drop leading and trailing whitespace. -/
def pyStrip (s : List Char) : List Char :=
  ((s.dropWhile pyIsSpace).reverse.dropWhile pyIsSpace).reverse

/-- Python `needle in hay` on strings: substring occurrence. -/
def pyIn (needle : List Char) : List Char → Bool
  | [] => needle.isEmpty
  | c :: rest => needle.isPrefixOf (c :: rest) || pyIn needle rest

/-- Python `str.lower` (ASCII fragment). -/
def pyLower (s : List Char) : List Char :=
  s.map Char.toLower

/-- Auxiliary scan of Python `s.split(sep)` for a non-empty separator
`c₀ :: sep'`: at each position, if the separator starts there, cut and continue
after it; otherwise keep the character in the current piece.  The fuel only
bounds the recursion: every step consumes at least one character, so
`s.length` steps always suffice and the zero-fuel arm is unreachable from
`pySplit`. -/
def pySplitGo (c₀ : Char) (sep' : List Char) : Nat → List Char → List Char → List (List Char)
  | _, [], acc => [acc.reverse]
  | 0, s, acc => [acc.reverse ++ s]
  | fuel + 1, c :: rest, acc =>
    if (c₀ :: sep').isPrefixOf (c :: rest) then
      acc.reverse :: pySplitGo c₀ sep' fuel (rest.drop sep'.length) []
    else
      pySplitGo c₀ sep' fuel rest (c :: acc)

/-- Python `s.split(sep)`.  The repository only calls it with the non-empty
separators `"PLAN:"` and `"WORKERS:"` (an empty separator raises in Python;
that case is unreachable here). -/
def pySplit (sep s : List Char) : List (List Char) :=
  match sep with
  | [] => [s]
  | c₀ :: sep' => pySplitGo c₀ sep' s.length s []

/-! ## Role Resolver

Embeds the role-validation fallback of `src/agents/planner.py` lines 109-134,
which is textually repeated in `src/agents/worker_factory.py` lines 11-35:
an exact (case-sensitive) membership test in the closed role list, then a
first-match scan for a canonical role whose lowercase form contains the
lowercase candidate as a substring, then the literal default role. -/

/-- Closed list of canonical specialist roles (`valid_roles` in the source),
in source order. -/
def valid_roles : List String :=
  ["Initial Access Specialist",
   "Execution Specialist",
   "Persistence Specialist",
   "Privilege Escalation Specialist",
   "Defense Evasion Specialist",
   "Credential Access Specialist",
   "Discovery Specialist",
   "Lateral Movement Specialist",
   "Collection Specialist",
   "Exfiltration Specialist"]

/-- Containment test of the fallback scan: `role.lower() in valid_role.lower()`
(the lowercase candidate occurs as a substring of the lowercase canonical
name). -/
def roleMatches (cand v : String) : Bool :=
  pyIn (pyLower cand.toList) (pyLower v.toList)

/-- For-else loop of the source: return the first canonical role `v` with
`role.lower() in v.lower()`, or the default role when none matches. -/
def roleFallback (r : String) : List String → String
  | [] => "Discovery Specialist"
  | v :: vs => if roleMatches r v then v else roleFallback r vs

/-- Role resolution (`if role not in valid_roles: ...` in the source). -/
def resolve_role (r : String) : String :=
  if valid_roles.contains r then r else roleFallback r valid_roles

/-! ## Worker-line scanner

Embeds `re.findall(worker_pattern, workers_raw, re.DOTALL)` with

  `worker_pattern = (\d+)\.\s*([^:]+?)(?:\s*:\s*|\s+)(.*?)(?=\d+\.\s*[^:]+:|$)`

from `src/agents/planner.py` lines 101-102.  The functions below are the
backtracking search of the Python engine specialised to this fixed pattern,
with every choice point resolved in engine order (leftmost match; lazy
quantifiers shortest first; alternation left branch first; greedy quantifiers
longest first).  Collapsed choice points are justified locally:

* `(\d+)\.`: backtracking a greedy digit run leaves a digit where `\.` must
  match, so the run is maximal or the item fails.
* the trailing `\s*` of `\s*:\s*` and a matched `\s+` are never re-entered,
  because the continuation `(.*?)(?=...|$)` always succeeds (the lazy dot can
  always extend to the end of input, where `$` holds).
* in the lookahead `\d+\.\s*[^:]+:`, after the dot the classes `\s` and `[^:]`
  both exclude `:`, so the lookahead succeeds exactly when a colon occurs after
  the dot with at least one character before it.
-/

/-- Lookahead alternative `\d+\.\s*[^:]+:` tested at the start of `cs`. -/
def headerAhead (cs : List Char) : Bool :=
  let ds := cs.takeWhile Char.isDigit
  !ds.isEmpty &&
    match cs.drop ds.length with
    | '.' :: rest =>
      (match rest.findIdx? (fun c => c = ':') with
       | some i => decide (1 ≤ i)
       | none => false)
    | _ => false

/-- Lookahead alternative `$` without `re.MULTILINE`: end of input, or a sole
final newline. -/
def dollarOk (cs : List Char) : Bool :=
  cs.isEmpty || cs == ['\n']

/-- Full lookahead `(?=\d+\.\s*[^:]+:|$)` tested at the start of `cs`. -/
def lookOk (cs : List Char) : Bool :=
  headerAhead cs || dollarOk cs

/-- Separator `(?:\s*:\s*|\s+)` at the start of `v`: the left branch succeeds
exactly when the first non-whitespace character is a colon (and consumes
through the colon and its trailing whitespace); otherwise the right branch
consumes a non-empty maximal whitespace run. -/
def trySep (v : List Char) : Option (List Char) :=
  let w := v.takeWhile pyIsSpace
  match v.drop w.length with
  | ':' :: rest => some (rest.drop (rest.takeWhile pyIsSpace).length)
  | _ => if w.isEmpty then none else some (v.drop w.length)

/-- Lazy role capture `([^:]+?)` followed by the separator: the shortest
non-empty colon-free prefix after which the separator matches, in engine
order (role length ascending).  Returns the captured role and the input
remaining after the separator. -/
def roleScan : List Char → Option (List Char × List Char)
  | [] => none
  | c :: u =>
    if c = ':' then none
    else
      match trySep u with
      | some rest => some ([c], rest)
      | none =>
        match roleScan u with
        | some (r, rest) => some (c :: r, rest)
        | none => none

/-- Greedy `\s*` before the role, with backtracking: try consuming `w`
whitespace characters for `w` descending from the maximal run. -/
def wsTry (afterDot : List Char) : Nat → Option (List Char × List Char)
  | 0 => roleScan afterDot
  | w + 1 =>
    match roleScan (afterDot.drop (w + 1)) with
    | some r => some r
    | none => wsTry afterDot w

/-- Lazy task capture `(.*?)(?=\d+\.\s*[^:]+:|$)`: the shortest (possibly
empty) prefix after which the lookahead holds.  Always succeeds, since `$`
holds at the end of input. -/
def taskScan : List Char → Option (List Char × List Char)
  | [] => if lookOk [] then some ([], []) else none
  | c :: rest =>
    if lookOk (c :: rest) then some ([], c :: rest)
    else
      match taskScan rest with
      | some (t, r) => some (c :: t, r)
      | none => none

/-- One attempt of the pattern anchored at the start of `cs`; on success,
returns the three captured groups and the input remaining after the match. -/
def matchAt (cs : List Char) : Option ((List Char × List Char × List Char) × List Char) :=
  let ds := cs.takeWhile Char.isDigit
  if ds.isEmpty then none
  else
    match cs.drop ds.length with
    | '.' :: afterDot =>
      match wsTry afterDot (afterDot.takeWhile pyIsSpace).length with
      | some (role, afterSep) =>
        match taskScan afterSep with
        | some (task, rest) => some ((ds, role, task), rest)
        | none => none
      | none => none
    | _ => none

/-- Scan loop of `re.findall`: attempt a match at each position left to right;
on success continue after the match.  The fuel only bounds the recursion: every
iteration consumes at least one character (a successful match consumes at least
the digit run and the dot), so `s.length` iterations always suffice. -/
def findAllGo : Nat → List Char → List (List Char × List Char × List Char)
  | 0, _ => []
  | _ + 1, [] => []
  | fuel + 1, c :: rest =>
    match matchAt (c :: rest) with
    | some (m, r) => m :: findAllGo fuel r
    | none => findAllGo fuel rest

/-- All pattern matches in `s`, as (index digits, role, task) capture triples. -/
def findAll (s : List Char) : List (List Char × List Char × List Char) :=
  findAllGo s.length s

/-! ## Plan Parser -/

/-- Worker assignment entry produced by the planner
(a dict with the keys `role` and `tasks` in the source). -/
structure WorkerDef where
  role : String
  tasks : String
deriving DecidableEq, Repr

/-- Cleanup applied to each captured role and task in the source: strip the
text, then delete every asterisk run via `re.sub`. -/
def cleanField (s : List Char) : List Char :=
  (pyStrip s).filter (fun c => c ≠ '*')

/-- Marker `"PLAN:"` as a character list. -/
def planMarker : List Char := 'P' :: 'L' :: 'A' :: 'N' :: ':' :: []

/-- Marker `"WORKERS:"` as a character list. -/
def workersMarker : List Char := 'W' :: 'O' :: 'R' :: 'K' :: 'E' :: 'R' :: 'S' :: ':' :: []

/-- Parsing portion of `Planner.__call__` (`src/agents/planner.py` lines
89-141): when both markers occur, the narrative is
`content.split("PLAN:")[1].split("WORKERS:")[0].strip()` and the worker list is
recovered from `content.split("WORKERS:")[1].strip()` by the pattern scan, each
entry cleaned and its role resolved; when either marker is absent, both results
stay empty. -/
def plannerParse (content : List Char) : List Char × List WorkerDef :=
  if pyIn planMarker content && pyIn workersMarker content then
    let afterPlan := (pySplit planMarker content).getD 1 []
    let planSection := pyStrip ((pySplit workersMarker afterPlan).getD 0 [])
    let workersRaw := pyStrip ((pySplit workersMarker content).getD 1 [])
    let defs := (findAll workersRaw).map fun m =>
      { role := resolve_role (String.mk (cleanField m.2.1)),
        tasks := String.mk (cleanField m.2.2) : WorkerDef }
    (planSection, defs)
  else ([], [])

/-! ## Shared state and state updates

The LangGraph `AgentState` of `src/main.py` is a string-keyed record; each node
returns a dict of updates that the executor merges into the state.  We model
the state as an ordered association list and an update as a list of key-value
pairs applied by overwrite (existing key updated in place, new key appended,
matching Python dict insertion-order semantics); only lookup results matter to
the claims. -/

/-- Values stored in the shared `AgentState`. -/
inductive SVal where
  | str (s : String)
  | num (n : Nat)
  | numList (l : List Nat)
  | defList (l : List WorkerDef)
  | workerOut (role analysis : String)
  | critiqueOut (assessment : String)
  | judgmentOut (evaluation : String)
deriving DecidableEq, Repr

/-- Shared state: an ordered association list of keyed values. -/
abbrev StateMap := List (String × SVal)

/-- Single state update: a keyed list of values to write. -/
abbrev Update := List (String × SVal)

/-- Lookup of a key in the state (dict lookup; keys are unique in every state
the pipeline builds). -/
def getVal : StateMap → String → Option SVal
  | [], _ => none
  | p :: rest, k => if p.1 == k then some p.2 else getVal rest k

/-- Write one key (dict write): update the entry in place when the key is
present, append it when absent. -/
def setKey : StateMap → String → SVal → StateMap
  | [], k, v => [(k, v)]
  | p :: rest, k, v => if p.1 == k then (k, v) :: rest else p :: setKey rest k v

/-- Apply an update list left to right. -/
def applyUpdates (st : StateMap) (us : Update) : StateMap :=
  us.foldl (fun s p => setKey s p.1 p.2) st

/-- Output slot key of worker `i` (`f"worker{num}_output"` in the source). -/
def workerKey (i : Nat) : String :=
  "worker" ++ toString i ++ "_output"

/-- String field lookup with the empty-string default, as in the source
`state.get` calls; the bracket-indexing call sites reached by `runGraph`
always find their key present. -/
def getStr (st : StateMap) (k : String) : String :=
  match getVal st k with
  | some (.str s) => s
  | _ => ""

/-- Lookup of `state.get("worker_definitions", [])`. -/
def getDefs (st : StateMap) : List WorkerDef :=
  match getVal st "worker_definitions" with
  | some (.defList l) => l
  | _ => []

/-! ## Pipeline stages

Each stage that calls the text-generation collaborator receives the
answer of the collaborator as an input: an `Option String` (or, for workers, a
function of the prompt), where `none` models a raised exception.  A stage
returning `none` models the exception propagating out of the node, which in
LangGraph aborts the whole `invoke`. -/

/-- Keys the planner does not copy from the incoming state
(`src/agents/planner.py` lines 147-150). -/
def plannerExcludedKeys : List String :=
  ["plan", "worker_definitions", "worker1_output", "worker2_output", "worker3_output",
   "worker4_output", "worker5_output", "critique_output"]

/-- Planner node (`Planner.__call__`): on a generation answer, parse it and
return every non-excluded state entry plus the new plan and worker
definitions; a generation failure propagates. -/
def plannerNode (state : StateMap) (resp : Option String) : Option Update :=
  match resp with
  | none => none
  | some content =>
    let parsed := plannerParse content.toList
    some ((state.filter (fun p => !(plannerExcludedKeys.contains p.1))) ++
      [("plan", .str (String.mk parsed.1)), ("worker_definitions", .defList parsed.2)])

/-- Python slicing `s[:n]` on a string (first `n` characters). -/
def pySlice (n : Nat) (s : String) : String :=
  String.mk (s.toList.take n)

/-- Human message of `SecurityWorker.__call__` (`src/agents/worker_factory.py`
lines 163-194), with the evidence payload truncated by `[:10000]`.  The
role-specific system message contains no state field and is not needed by any
claim. -/
def workerPrompt (humanInput plan tasks logContent role : String) : String :=
  "\n                Security Investigation Request: " ++ humanInput ++
  "\n                \n                Overall Analysis Plan: " ++ plan ++
  "\n                \n                Your Specific Task: " ++ tasks ++
  "\n                \n                CrowdStrike Falcon Log Sample:\n                ```\n                " ++
  pySlice 10000 logContent ++
  "  # Limit log content to prevent overflow\n                ```\n                \n                Analyze these CrowdStrike Falcon logs according to your security specialty (" ++
  role ++
  "). Provide:\n                \n                1. EVIDENCE: List specific log entries that indicate suspicious activity in your domain\n                2. ANALYSIS: Explain what these entries reveal and their security implications\n                3. CONFIDENCE: Rate your confidence in each finding (High/Medium/Low)\n                4. RECOMMENDATIONS: Suggest specific next investigative steps\n                \n                For each recommendation, provide platform-specific commands:\n                \n                ACTIONABLE COMMANDS:\n                [Windows]\n                - `command1` - Brief explanation\n                - `command2` - Brief explanation\n                \n                [macOS/Linux]\n                - `command1` - Brief explanation\n                - `command2` - Brief explanation\n                \n                Focus only on findings relevant to your specialty (" ++
  role ++
  "). Be specific and cite exact log entries.\n                "

/-- Sentinel output written by `create_worker` in `src/main.py` lines 82-84
when slot `i` has no parsed assignment. -/
def sentinelOut : SVal :=
  .workerOut "Default" "No specific role defined."

/-- Worker node `i`: the `create_worker(num)` wrapper of `src/main.py` lines
76-85 around `SecurityWorker.__call__` of `src/agents/worker_factory.py` lines
157-210.  With enough parsed assignments the worker re-validates its role,
sends the prompt, and writes its own slot; a generation failure propagates;
with too few assignments the sentinel is written without any generation
call. -/
def workerNode (i : Nat) (llm : String → Option String) (state : StateMap) : Option Update :=
  if i ≤ (getDefs state).length then
    match (getDefs state)[i-1]? with
    | some wd =>
      match llm (workerPrompt (getStr state "human_input") (getStr state "plan") wd.tasks
          (getStr state "log_content") (resolve_role wd.role)) with
      | some content => some [(workerKey i, .workerOut (resolve_role wd.role) content)]
      | none => none
    | none => none
  else
    some [(workerKey i, sentinelOut)]

/-- Critique node (`Critique.__call__`, `src/agents/critique.py` lines 56-102):
returns only the `critique_output` key. -/
def critiqueNode (_state : StateMap) (resp : Option String) : Option Update :=
  match resp with
  | none => none
  | some content => some [("critique_output", .critiqueOut content)]

/-- Log lines printed by the `except` branch around the LangSmith persistence
call in `Judge.__call__` (`src/agents/judge.py` lines 66-92). -/
def persistFailureLog (sink : Except String Unit) : List String :=
  match sink with
  | .ok _ => []
  | .error e => ["Failed to create LangSmith example: " ++ e]

/-- Judge node (`Judge.__call__`, `src/agents/judge.py` lines 57-97): after a
generation answer, attempt the best-effort persistence (whose failure is only
logged), then return only the `final_judgment` key.  The returned pair is the
state update together with the log lines. -/
def judgeNode (_state : StateMap) (resp : Option String) (sink : Except String Unit) :
    Option (Update × List String) :=
  match resp with
  | none => none
  | some content => some ([("final_judgment", .judgmentOut content)], persistFailureLog sink)

/-- Answers of the external collaborators for one run: one generation answer
per stage (per prompt for the five workers) and the persistence outcome. -/
structure Oracles where
  planResp : Option String
  workerLLM : Fin 5 → String → Option String
  critiqueResp : Option String
  judgeResp : Option String
  sink : Except String Unit

/-- Graph executor (`create_log_analysis_graph` + `invoke`, `src/main.py` lines
50-113): planner, then the five workers in one parallel superstep all reading
the post-planner state, their disjoint-key updates merged, then critique, then
judge.  Any node exception (`none`) aborts the run. -/
def runGraph (o : Oracles) (init : StateMap) : Option StateMap := do
  let pu ← plannerNode init o.planResp
  let s1 := applyUpdates init pu
  let u1 ← workerNode 1 (o.workerLLM 0) s1
  let u2 ← workerNode 2 (o.workerLLM 1) s1
  let u3 ← workerNode 3 (o.workerLLM 2) s1
  let u4 ← workerNode 4 (o.workerLLM 3) s1
  let u5 ← workerNode 5 (o.workerLLM 4) s1
  let s2 := applyUpdates s1 (u1 ++ u2 ++ u3 ++ u4 ++ u5)
  let cu ← critiqueNode s2 o.critiqueResp
  let s3 := applyUpdates s2 cu
  let ju ← judgeNode s3 o.judgeResp o.sink
  pure (applyUpdates s3 ju.1)

/-- Evidence reader (`read_crowdstrike_data`, `src/main.py` lines 116-174).
Reading and reservoir-sampling the file is the external evidence-source
collaborator, given here as an `Except`: on success the sampled JSON dump is
returned; the `except Exception` branch catches any read failure and returns
the error message as the data string. -/
def read_crowdstrike_data (readResult : Except String String) : String :=
  match readResult with
  | .ok sampled => sampled
  | .error e => "Error reading CrowdStrike data: " ++ e

/-- Initial state built by `run_log_analysis` (`src/main.py` lines 197-203). -/
def initState (humanInput logContent : String) (maxIterations : Nat) : StateMap :=
  [("human_input", .str humanInput),
   ("log_content", .str logContent),
   ("max_iterations", .num maxIterations),
   ("workers_to_revise", .numList []),
   ("iteration_count", .num 0)]

/-- Run entry point (`run_log_analysis`, `src/main.py` lines 177-220): read the
evidence, build the initial state, invoke the graph. -/
def run_log_analysis (humanInput : String) (readResult : Except String String)
    (maxIterations : Nat) (o : Oracles) : Option StateMap :=
  runGraph o (initState humanInput (read_crowdstrike_data readResult) maxIterations)

/-! ## Consensus Aggregator contract

Modelled from the spec: the consensus stage of the repository
(`src/agents/critique.py`) delegates claim clustering, corroboration counting
and tier assignment entirely to the text-generation collaborator; no repository
code computes them.  The definitions below follow the contract stated by the
spec (and restated in the Critique system prompt: high for three or more
agreeing specialists, medium for two, low for one; corroboration counts
distinct roles). -/

/-- Confidence tier of a scored finding. -/
inductive ConfidenceTier where
  | low
  | medium
  | high
deriving DecidableEq, Repr

/-- Modelled from the spec: the tier is a pure function of the corroboration
count — at least 3 gives High, exactly 2 gives Medium, 1 gives Low. -/
def confidenceTier (corroborationCount : Nat) : ConfidenceTier :=
  if 3 ≤ corroborationCount then .high
  else if corroborationCount = 2 then .medium
  else .low

/-- Modelled from the spec: the corroboration count of a cluster is the number
of distinct contributing roles, not the number of claims. -/
def corroborationCount (contributingRoles : List String) : Nat :=
  contributingRoles.dedup.length

/-- Tier of a cluster of claims given the roles contributing to it. -/
def clusterTier (contributingRoles : List String) : ConfidenceTier :=
  confidenceTier (corroborationCount contributingRoles)

/-- Numeric rank of a tier, for stating monotonicity. -/
def tierRank : ConfidenceTier → Nat
  | .low => 1
  | .medium => 2
  | .high => 3

/-! ## Auxiliary notions and concrete run inputs used by the analyses -/

/-- A separator has no proper border: no non-trivial proper suffix of it is
also a prefix.  Both markers of the plan format satisfy this, which rules out
separator occurrences straddling the seam of `a ++ sep ++ r`. -/
def borderFree (sep : List Char) : Prop :=
  ∀ k, k < sep.length → 0 < k → sep.drop k ≠ sep.take (sep.length - k)

/-- Planning answer assigning one worker; used by the concrete runs below. -/
def onePlanText : String :=
  "PLAN: p WORKERS: 1. Discovery Specialist: scan logs"

/-- Oracles of a run in which the generation call of worker 1 raises while
every other collaborator answers normally. -/
def worker1FailOracles : Oracles :=
  { planResp := some onePlanText,
    workerLLM := fun i _ => if i = 0 then none else some "ok",
    critiqueResp := some "consensus",
    judgeResp := some "verdict",
    sink := .ok () }

/-- Oracles of a run in which every collaborator answers normally. -/
def allGoodOracles : Oracles :=
  { planResp := some onePlanText,
    workerLLM := fun _ _ => some "found something",
    critiqueResp := some "consensus",
    judgeResp := some "verdict",
    sink := .ok () }

/-- Planning answer with six numbered worker lines. -/
def sixWorkerText : String :=
  "PLAN: p WORKERS: 1. A: t1 2. B: t2 3. C: t3 4. D: t4 5. E: t5 6. F: t6"

/-- Well-formed planning answer whose two worker lines carry multi-word
canonical role names, as the planner system prompt instructs. -/
def canonicalTwoText : String :=
  "PLAN: Narrative WORKERS: 1. Defense Evasion Specialist: find log clearing 2. Discovery Specialist: scan hosts"

/-- Well-formed planning answer whose two worker lines carry single-token role
labels directly followed by a colon. -/
def singleTokenTwoText : String :=
  "PLAN: Investigate the hosts WORKERS: 1. Discovery: taskA 2. Execution: taskB"

/-! ## Helper lemmas on state lookup and update -/

theorem getVal_setKey (st : StateMap) (k : String) (v : SVal) (k' : String) :
    getVal (setKey st k v) k' = if k = k' then some v else getVal st k' := by
  induction st with
  | nil => simp [setKey, getVal]
  | cons p rest ih =>
    by_cases h1 : p.1 = k
    · by_cases h2 : k = k' <;> simp [setKey, getVal, h1, h2]
    · by_cases h2 : k = k'
      · subst h2
        simp [setKey, getVal, h1, ih]
      · simp [setKey, getVal, h1, h2, ih]

theorem applyUpdates_cons (st : StateMap) (p : String × SVal) (us : Update) :
    applyUpdates st (p :: us) = applyUpdates (setKey st p.1 p.2) us := rfl

theorem applyUpdates_append (st : StateMap) (us vs : Update) :
    applyUpdates st (us ++ vs) = applyUpdates (applyUpdates st us) vs := by
  simp [applyUpdates, List.foldl_append]

theorem getVal_applyUpdates_congr (us : Update) :
    ∀ st₁ st₂ : StateMap, (∀ k, getVal st₁ k = getVal st₂ k) →
      ∀ k, getVal (applyUpdates st₁ us) k = getVal (applyUpdates st₂ us) k := by
  induction us with
  | nil => intro st₁ st₂ h k; exact h k
  | cons p us ih =>
    intro st₁ st₂ h k
    rw [applyUpdates_cons, applyUpdates_cons]
    refine ih _ _ (fun k' => ?_) k
    rw [getVal_setKey, getVal_setKey, h k']

/-! ## Claim C3: consensus tier as a function of corroboration -/

/-- C3: the confidence tier of a scored finding is a pure function of its
corroboration count (at least 3 gives High, 2 gives Medium, 1 gives Low), the
count is the number of distinct contributing roles (a repeated role does not
increase it), and tiering is monotone in the count. -/
theorem C3_tier_pure_of_corroboration :
    (∀ c, 3 ≤ c → confidenceTier c = .high) ∧
    confidenceTier 2 = .medium ∧
    confidenceTier 1 = .low ∧
    (∀ c₁ c₂, c₁ ≤ c₂ → tierRank (confidenceTier c₁) ≤ tierRank (confidenceTier c₂)) ∧
    (∀ (role : String) (roles : List String), role ∈ roles →
      corroborationCount (role :: roles) = corroborationCount roles) := by
  refine ⟨?_, by decide, by decide, ?_, ?_⟩
  · intro c hc
    simp [confidenceTier, hc]
  · intro c₁ c₂ h
    unfold confidenceTier
    split_ifs <;> simp_all [tierRank] <;> omega
  · intro role roles hmem
    simp [corroborationCount, List.dedup_cons_of_mem hmem]

theorem C3_witness :
    confidenceTier 3 = .high ∧
    tierRank (confidenceTier 1) ≤ tierRank (confidenceTier 2) ∧
    corroborationCount ("a" :: "a" :: []) = corroborationCount ("a" :: []) :=
  ⟨C3_tier_pure_of_corroboration.1 3 (by decide),
   C3_tier_pure_of_corroboration.2.2.2.1 1 2 (by decide),
   C3_tier_pure_of_corroboration.2.2.2.2 "a" ("a" :: []) (by simp)⟩

/-! ## Claim C4: assignment-list bound and slot padding -/

/-- C4 counterexample: a planning answer with six numbered worker lines parses
to six assignments, so the assignment list is not bounded by the worker slot
count 5. -/
theorem C4_counterexample : ¬ ((plannerParse sixWorkerText.toList).2.length ≤ 5) := by decide

/-- C4 (amended): the parser applies no slot-count bound to the assignment
list; padding happens only at dispatch, where a slot beyond the parsed
assignment count receives the sentinel worker output (role `"Default"`,
analysis `"No specific role defined."`) instead of a neutral placeholder
assignment. -/
theorem C4_unfilled_slot_gets_sentinel (st : StateMap) (llm : String → Option String)
    (i : Nat) (h : (getDefs st).length < i) :
    workerNode i llm st = some [(workerKey i, sentinelOut)] := by
  unfold workerNode
  rw [if_neg (by omega)]

theorem C4_witness : workerNode 3 (fun _ => none) [] = some [(workerKey 3, sentinelOut)] :=
  C4_unfilled_slot_gets_sentinel [] (fun _ => none) 3 (by decide)

/-! ## Claim C8: sink failure swallowed by the judge -/

/-- C8: a persistence failure in the decision stage is only logged: the judge
still returns its single-verdict update, the update is the same whatever the
sink outcome, and the stage never fails because of the sink. -/
theorem C8_sink_failure_swallowed (st : StateMap) (c : String) (s₁ s₂ : Except String Unit) :
    judgeNode st (some c) s₁ = some ([("final_judgment", .judgmentOut c)], persistFailureLog s₁) ∧
    (judgeNode st (some c) s₁).map Prod.fst = (judgeNode st (some c) s₂).map Prod.fst ∧
    (judgeNode st (some c) s₁).isSome = true :=
  ⟨rfl, rfl, rfl⟩

/-! ## Claim C9: frame of the critique and judge stages -/

/-- C9: whenever the critique stage returns an update it contains exactly the
key `critique_output`, and whenever the judge stage returns an update it
contains exactly the key `final_judgment`; no other state field is written by
these stages. -/
theorem C9_critique_judge_frame :
    (∀ (st : StateMap) (resp : Option String) (u : Update),
        critiqueNode st resp = some u → u.map Prod.fst = ["critique_output"]) ∧
    (∀ (st : StateMap) (resp : Option String) (sink : Except String Unit) (uj : Update × List String),
        judgeNode st resp sink = some uj → uj.1.map Prod.fst = ["final_judgment"]) := by
  constructor
  · intro st resp u h
    cases resp with
    | none => exact absurd h (by simp [critiqueNode])
    | some c =>
      have : u = [("critique_output", .critiqueOut c)] := (Option.some.inj h).symm
      simp [this]
  · intro st resp sink uj h
    cases resp with
    | none => exact absurd h (by simp [judgeNode])
    | some c =>
      have : uj = ([("final_judgment", .judgmentOut c)], persistFailureLog sink) :=
        (Option.some.inj h).symm
      simp [this]

theorem C9_witness :
    ([("critique_output", SVal.critiqueOut "x")] : Update).map Prod.fst = ["critique_output"] ∧
    (([("final_judgment", SVal.judgmentOut "y")], ([] : List String))).1.map Prod.fst
      = ["final_judgment"] :=
  ⟨C9_critique_judge_frame.1 [] (some "x") _ rfl,
   C9_critique_judge_frame.2 [] (some "y") (.ok ()) _ rfl⟩

/-! ## Claim C10: evidence truncation in the worker prompt -/

/-- C10: a worker prompt depends on the evidence payload only through its
first 10000 characters — two log contents agreeing on those characters give
the same prompt. -/
theorem C10_prompt_evidence_truncated (hi plan tasks role lc₁ lc₂ : String)
    (h : lc₁.toList.take 10000 = lc₂.toList.take 10000) :
    workerPrompt hi plan tasks lc₁ role = workerPrompt hi plan tasks lc₂ role := by
  unfold workerPrompt pySlice
  rw [h]

theorem C10_witness :
    workerPrompt "q" "p" "t" (String.mk (List.replicate 10001 'a')) "r" =
      workerPrompt "q" "p" "t" (String.mk (List.replicate 10000 'a' ++ ('b' :: []))) "r" :=
  C10_prompt_evidence_truncated "q" "p" "t" "r" _ _ (by
    show (List.replicate 10001 'a').take 10000 =
      (List.replicate 10000 'a' ++ ('b' :: [])).take 10000
    rw [List.take_append_eq_append_take]
    have h1 : min 10000 10001 = 10000 := by omega
    have h2 : min 10000 10000 = 10000 := by omega
    simp only [List.take_replicate, h1, h2, List.length_replicate, Nat.sub_self,
      List.take_zero, List.append_nil])

/-! ## Claim C7: single-writer slots and order-independent merge -/

theorem setKey_swap_getVal (st : StateMap) (k₁ k₂ : String) (v₁ v₂ : SVal)
    (hne : k₁ ≠ k₂) (k : String) :
    getVal (setKey (setKey st k₁ v₁) k₂ v₂) k = getVal (setKey (setKey st k₂ v₂) k₁ v₁) k := by
  rw [getVal_setKey, getVal_setKey, getVal_setKey, getVal_setKey]
  by_cases h1 : k₁ = k <;> by_cases h2 : k₂ = k
  · exact absurd (h1.trans h2.symm) hne
  · simp [h1, h2]
  · simp [h1, h2]
  · simp [h1, h2]

theorem getVal_applyUpdates_perm {l₁ l₂ : Update} (hp : l₁.Perm l₂) :
    l₁.Pairwise (fun p q => p.1 ≠ q.1) →
    ∀ st k, getVal (applyUpdates st l₁) k = getVal (applyUpdates st l₂) k := by
  induction hp with
  | nil => intro _ st k; rfl
  | cons p h ih =>
    intro hpw st k
    rw [applyUpdates_cons, applyUpdates_cons]
    exact ih hpw.of_cons _ k
  | swap x y l =>
    intro hpw st k
    rw [applyUpdates_cons, applyUpdates_cons, applyUpdates_cons, applyUpdates_cons]
    refine getVal_applyUpdates_congr l _ _ (fun k' => ?_) k
    have hne : y.1 ≠ x.1 := (List.pairwise_cons.mp hpw).1 x (by simp)
    exact setKey_swap_getVal st y.1 x.1 y.2 x.2 hne k'
  | trans h₁ h₂ ih₁ ih₂ =>
    intro hpw st k
    have hpw₂ := (h₁.pairwise_iff (fun hab => Ne.symm hab)).mp hpw
    rw [ih₁ hpw st k, ih₂ hpw₂ st k]

/-- C7: every worker update is a single write to its own slot key, and
merging a pairwise-disjoint update list into the state gives the same lookups
under any permutation of the updates, so the merged record does not depend on
completion order. -/
theorem C7_disjoint_slots_order_independent :
    (∀ (i : Nat) (llm : String → Option String) (st : StateMap) (u : Update),
        workerNode i llm st = some u → ∃ v, u = [(workerKey i, v)]) ∧
    (∀ l₁ l₂ : Update, l₁.Perm l₂ → l₁.Pairwise (fun p q => p.1 ≠ q.1) →
        ∀ st k, getVal (applyUpdates st l₁) k = getVal (applyUpdates st l₂) k) := by
  constructor
  · intro i llm st u h
    unfold workerNode at h
    split at h
    · split at h
      · split at h
        · exact ⟨_, (Option.some.inj h).symm⟩
        · exact absurd h (by simp)
      · exact absurd h (by simp)
    · exact ⟨_, (Option.some.inj h).symm⟩
  · intro l₁ l₂ hp hpw st k
    exact getVal_applyUpdates_perm hp hpw st k

theorem C7_witness :
    (∃ v, ([(workerKey 2, sentinelOut)] : Update) = [(workerKey 2, v)]) ∧
    getVal (applyUpdates [] [("a", SVal.num 1), ("b", SVal.num 2)]) "a" =
      getVal (applyUpdates [] [("b", SVal.num 2), ("a", SVal.num 1)]) "a" :=
  ⟨C7_disjoint_slots_order_independent.1 2 (fun _ => none) [] _ rfl,
   C7_disjoint_slots_order_independent.2 _ _
     (List.Perm.swap ("b", SVal.num 2) ("a", SVal.num 1) [])
     (by simp) [] "a"⟩

/-! ## Claim C5: role resolution -/

theorem roleFallback_first (r : String) :
    ∀ l : List String,
      (∃ i : Fin l.length, roleMatches r (l.get i) = true ∧
        (∀ j : Fin l.length, j.val < i.val → roleMatches r (l.get j) = false) ∧
        roleFallback r l = l.get i) ∨
      ((∀ v ∈ l, roleMatches r v = false) ∧ roleFallback r l = "Discovery Specialist") := by
  intro l
  induction l with
  | nil => exact Or.inr ⟨by simp, rfl⟩
  | cons v vs ih =>
    by_cases h : roleMatches r v
    · refine Or.inl ⟨⟨0, by simp⟩, h, ?_, by simp [roleFallback, h]⟩
      intro j hj
      simp only [Fin.val_mk] at hj
      exact absurd hj (Nat.not_lt_zero _)
    · have hfalse : roleMatches r v = false := by
        exact Bool.not_eq_true _ ▸ eq_false_of_ne_true h
      rcases ih with ⟨i, h1, h2, h3⟩ | ⟨h1, h2⟩
      · refine Or.inl ⟨⟨i.val + 1, by simp⟩, h1, ?_, by simp [roleFallback, h, h3]⟩
        intro j hj
        obtain ⟨jv, hjlt⟩ := j
        cases jv with
        | zero => exact hfalse
        | succ k =>
          exact h2 ⟨k, by simpa using hjlt⟩ (by simpa using hj)
      · refine Or.inr ⟨?_, by simp [roleFallback, h, h2]⟩
        intro w hw
        rcases List.mem_cons.mp hw with rfl | hw'
        · exact hfalse
        · exact h1 w hw'

/-- C5: role resolution never fails and always lands in the closed role set; an
exact (case-sensitive) member is returned unchanged; otherwise the first
canonical role (in the fixed source order) whose lowercase name contains the
lowercase candidate is returned; otherwise the default role
`"Discovery Specialist"`. -/
theorem C5_role_resolution_total (r : String) :
    resolve_role r ∈ valid_roles ∧
    (r ∈ valid_roles → resolve_role r = r) ∧
    (r ∉ valid_roles →
      ((∃ i : Fin valid_roles.length, roleMatches r (valid_roles.get i) = true ∧
          (∀ j : Fin valid_roles.length, j.val < i.val →
            roleMatches r (valid_roles.get j) = false) ∧
          resolve_role r = valid_roles.get i) ∨
        ((∀ v ∈ valid_roles, roleMatches r v = false) ∧
          resolve_role r = "Discovery Specialist"))) := by
  refine ⟨?_, ?_, ?_⟩
  · by_cases hmem : r ∈ valid_roles
    · simp [resolve_role, hmem]
    · have hres : resolve_role r = roleFallback r valid_roles := by
        simp [resolve_role, hmem]
      rcases roleFallback_first r valid_roles with ⟨i, _, _, h3⟩ | ⟨_, h2⟩
      · rw [hres, h3]
        exact List.get_mem valid_roles i.val i.isLt
      · rw [hres, h2]
        decide
  · intro hmem
    simp [resolve_role, hmem]
  · intro hmem
    have hres : resolve_role r = roleFallback r valid_roles := by
      simp [resolve_role, hmem]
    rw [hres]
    exact roleFallback_first r valid_roles

theorem C5_witness :
    resolve_role "Initial Access Specialist" = "Initial Access Specialist" ∧
    resolve_role "zzz" ∈ valid_roles ∧
    ((∃ i : Fin valid_roles.length, roleMatches "zzz" (valid_roles.get i) = true ∧
        (∀ j : Fin valid_roles.length, j.val < i.val →
          roleMatches "zzz" (valid_roles.get j) = false) ∧
        resolve_role "zzz" = valid_roles.get i) ∨
      ((∀ v ∈ valid_roles, roleMatches "zzz" v = false) ∧
        resolve_role "zzz" = "Discovery Specialist")) :=
  ⟨(C5_role_resolution_total "Initial Access Specialist").2.1 (by decide),
   (C5_role_resolution_total "zzz").1,
   (C5_role_resolution_total "zzz").2.2 (by decide)⟩

/-! ## Helper lemmas on the Python split -/

theorem pyIn_iff_occurrence (needle s : List Char) : pyIn needle s = true ↔ needle <:+: s := by
  induction s with
  | nil => simp [pyIn, List.isEmpty_iff]
  | cons c rest ih =>
    simp [pyIn, List.isPrefixOf_iff_prefix, ih, List.infix_cons_iff]

theorem pyIn_cons_false {needle : List Char} {c : Char} {rest : List Char}
    (h : pyIn needle (c :: rest) = false) :
    needle.isPrefixOf (c :: rest) = false ∧ pyIn needle rest = false := by
  simpa [pyIn, Bool.or_eq_false_iff] using h

theorem pySplitGo_fuel (c₀ : Char) (sep' : List Char) :
    ∀ fuel₁ fuel₂ s acc, s.length ≤ fuel₁ → s.length ≤ fuel₂ →
      pySplitGo c₀ sep' fuel₁ s acc = pySplitGo c₀ sep' fuel₂ s acc := by
  intro fuel₁
  induction fuel₁ with
  | zero =>
    intro fuel₂ s acc h₁ _
    have hs : s = [] := by
      cases s with
      | nil => rfl
      | cons c rest => simp at h₁
    subst hs
    cases fuel₂ <;> rfl
  | succ f ih =>
    intro fuel₂ s acc h₁ h₂
    cases s with
    | nil => cases fuel₂ <;> rfl
    | cons c rest =>
      cases fuel₂ with
      | zero => simp at h₂
      | succ f₂ =>
        simp only [pySplitGo]
        by_cases hpre : (c₀ :: sep').isPrefixOf (c :: rest) = true
        · rw [if_pos hpre, if_pos hpre]
          have hlen : (rest.drop sep'.length).length ≤ f := by
            simp only [List.length_cons] at h₁
            simp only [List.length_drop]
            omega
          have hlen₂ : (rest.drop sep'.length).length ≤ f₂ := by
            simp only [List.length_cons] at h₂
            simp only [List.length_drop]
            omega
          rw [ih f₂ _ [] hlen hlen₂]
        · rw [if_neg hpre, if_neg hpre]
          have hlen : rest.length ≤ f := by
            simp only [List.length_cons] at h₁
            omega
          have hlen₂ : rest.length ≤ f₂ := by
            simp only [List.length_cons] at h₂
            omega
          rw [ih f₂ _ (c :: acc) hlen hlen₂]

theorem pySplitGo_no_cut (c₀ : Char) (sep' : List Char) :
    ∀ fuel s acc, pyIn (c₀ :: sep') s = false →
      pySplitGo c₀ sep' fuel s acc = [acc.reverse ++ s] := by
  intro fuel
  induction fuel with
  | zero =>
    intro s acc _
    cases s with
    | nil => simp [pySplitGo]
    | cons c rest => rfl
  | succ f ih =>
    intro s acc h
    cases s with
    | nil => simp [pySplitGo]
    | cons c rest =>
      obtain ⟨hp, hrest⟩ := pyIn_cons_false h
      simp only [pySplitGo, hp, Bool.false_eq_true, if_false]
      rw [ih rest (c :: acc) hrest]
      simp

theorem pySplit_no_cut (sep s : List Char) (h : pyIn sep s = false) :
    pySplit sep s = [s] := by
  cases sep with
  | nil => rfl
  | cons c₀ sep' =>
    show pySplitGo c₀ sep' s.length s [] = [s]
    rw [pySplitGo_no_cut c₀ sep' s.length s [] h]
    simp

/-- A separator occurrence cannot start strictly inside `a` in `a ++ sep ++ r`:
an occurrence fully inside `a` is excluded by `ha`, and a straddling occurrence
would exhibit a proper border of the separator, excluded by `hbf`. -/
theorem seam_not_prefix (sep a r : List Char) (hbf : borderFree sep) (hsep : sep ≠ [])
    (hne : a ≠ []) (ha : pyIn sep a = false) :
    ¬ sep <+: a ++ (sep ++ r) := by
  intro hpre
  have hsep0 : 0 < sep.length := List.length_pos.mpr hsep
  rcases Nat.lt_or_ge a.length sep.length with hlen | hlen
  · have hk0 : 0 < a.length := List.length_pos.mpr hne
    have htk : sep.take a.length <+: a ++ (sep ++ r) :=
      (List.take_prefix a.length sep).trans hpre
    have hak : a <+: a ++ (sep ++ r) := List.prefix_append a _
    have h1 : sep.take a.length = a := by
      rcases List.prefix_or_prefix_of_prefix htk hak with h | h
      · exact h.eq_of_length (by simp only [List.length_take]; omega)
      · exact (h.eq_of_length (by simp only [List.length_take]; omega)).symm
    have h5 : a ++ sep.drop a.length = sep := by
      have h6 := List.take_append_drop a.length sep
      rw [h1] at h6
      exact h6
    have h2 : sep.drop a.length <+: sep ++ r := by
      have hx : a ++ sep.drop a.length <+: a ++ (sep ++ r) := by
        rw [h5]
        exact hpre
      exact (List.prefix_append_right_inj a).mp hx
    have h3 : sep.drop a.length <+: sep := by
      rcases List.prefix_or_prefix_of_prefix h2 (List.prefix_append sep r) with h | h
      · exact h
      · have hl := h.length_le
        simp only [List.length_drop] at hl
        omega
    have h4 : sep.drop a.length = sep.take (sep.length - a.length) := by
      rcases List.prefix_or_prefix_of_prefix h3
          (List.take_prefix (sep.length - a.length) sep) with h | h
      · exact h.eq_of_length (by simp only [List.length_take, List.length_drop]; omega)
      · exact (h.eq_of_length (by simp only [List.length_take, List.length_drop]; omega)).symm
    exact hbf a.length hlen hk0 h4
  · have h1 : sep <+: a := by
      rcases List.prefix_or_prefix_of_prefix hpre (List.prefix_append a _) with h | h
      · exact h
      · have heq : a = sep := h.eq_of_length (le_antisymm h.length_le hlen)
        rw [heq]
    have h2 : pyIn sep a = true := (pyIn_iff_occurrence sep a).mpr h1.isInfix
    rw [ha] at h2
    exact Bool.false_ne_true h2

theorem pySplitGo_cons (c₀ : Char) (sep' : List Char) (f : Nat) (c : Char) (rest acc : List Char) :
    pySplitGo c₀ sep' (f + 1) (c :: rest) acc =
      if (c₀ :: sep').isPrefixOf (c :: rest) then
        acc.reverse :: pySplitGo c₀ sep' f (rest.drop sep'.length) []
      else pySplitGo c₀ sep' f rest (c :: acc) := rfl

theorem pySplitGo_seam (c₀ : Char) (sep' r : List Char) (hbf : borderFree (c₀ :: sep')) :
    ∀ a fuel acc, (a ++ ((c₀ :: sep') ++ r)).length ≤ fuel → pyIn (c₀ :: sep') a = false →
      pySplitGo c₀ sep' fuel (a ++ ((c₀ :: sep') ++ r)) acc =
        (acc.reverse ++ a) :: pySplitGo c₀ sep' (fuel - (a.length + 1)) r [] := by
  intro a
  induction a with
  | nil =>
    intro fuel acc hfuel _
    cases fuel with
    | zero => simp at hfuel
    | succ f =>
      have hpre : (c₀ :: sep').isPrefixOf (c₀ :: (sep' ++ r)) = true := by
        rw [List.isPrefixOf_iff_prefix]
        exact ⟨r, by simp⟩
      have hli : ([] : List Char) ++ ((c₀ :: sep') ++ r) = c₀ :: (sep' ++ r) := by simp
      rw [hli, pySplitGo_cons, if_pos hpre, List.drop_left]
      simp [Nat.succ_sub_succ]
  | cons x a' ih =>
    intro fuel acc hfuel ha
    obtain ⟨_, ha'⟩ := pyIn_cons_false ha
    cases fuel with
    | zero => simp at hfuel
    | succ f =>
      have hnp : ¬ ((c₀ :: sep').isPrefixOf (x :: (a' ++ ((c₀ :: sep') ++ r))) = true) := by
        intro hco
        have hx : (x :: a') ++ ((c₀ :: sep') ++ r) = x :: (a' ++ ((c₀ :: sep') ++ r)) := by
          simp
        refine seam_not_prefix (c₀ :: sep') (x :: a') r hbf (by simp) (by simp) ha ?_
        rw [hx]
        exact List.isPrefixOf_iff_prefix.mp hco
      have hli : (x :: a') ++ ((c₀ :: sep') ++ r) = x :: (a' ++ ((c₀ :: sep') ++ r)) := by
        simp
      rw [hli, pySplitGo_cons, if_neg hnp]
      have hfuel' : (a' ++ ((c₀ :: sep') ++ r)).length ≤ f := by
        simp only [List.length_append, List.length_cons] at hfuel ⊢
        omega
      rw [ih f (x :: acc) hfuel' ha']
      simp only [List.reverse_cons, List.append_assoc, List.singleton_append, List.length_cons]
      congr 2
      omega

theorem pySplit_seam (c₀ : Char) (sep' a r : List Char) (hbf : borderFree (c₀ :: sep'))
    (ha : pyIn (c₀ :: sep') a = false) :
    pySplit (c₀ :: sep') (a ++ ((c₀ :: sep') ++ r)) = a :: pySplit (c₀ :: sep') r := by
  show pySplitGo c₀ sep' (a ++ ((c₀ :: sep') ++ r)).length (a ++ ((c₀ :: sep') ++ r)) [] = _
  rw [pySplitGo_seam c₀ sep' r hbf a _ [] (le_refl _) ha]
  simp only [List.reverse_nil, List.nil_append]
  congr 1
  apply pySplitGo_fuel
  · simp only [List.length_append, List.length_cons]
    omega
  · exact le_refl _

/-! ## Claim C6: plan parsing -/

theorem borderFree_planMarker : borderFree planMarker := by
  intro k h1 h2
  simp only [planMarker, List.length_cons, List.length_nil] at h1
  interval_cases k <;> decide

theorem borderFree_workersMarker : borderFree workersMarker := by
  intro k h1 h2
  simp only [workersMarker, List.length_cons, List.length_nil] at h1
  interval_cases k <;> decide

theorem pySplit_seam_plan (a r : List Char) (ha : pyIn planMarker a = false) :
    pySplit planMarker (a ++ (planMarker ++ r)) = a :: pySplit planMarker r :=
  pySplit_seam 'P' ('L' :: 'A' :: 'N' :: ':' :: []) a r borderFree_planMarker ha

theorem pySplit_seam_workers (a r : List Char) (ha : pyIn workersMarker a = false) :
    pySplit workersMarker (a ++ (workersMarker ++ r)) = a :: pySplit workersMarker r :=
  pySplit_seam 'W' ('O' :: 'R' :: 'K' :: 'E' :: 'R' :: 'S' :: ':' :: []) a r
    borderFree_workersMarker ha

/-- C6 (amended): when either marker is absent the parser returns an empty
narrative and an empty assignment list; when the input is
`a ++ "PLAN:" ++ b ++ "WORKERS:" ++ c` with the displayed marker occurrences
the first ones, the narrative is exactly the trimmed `b`; and on a well-formed
two-line workers section the assignment list has the two corresponding
role/task pairs provided each role label is a single token directly followed
by a colon (a multi-word role label is captured only up to its first space and
the rest of the label flows into the task — see the counterexample). -/
theorem C6_plan_parser_behavior :
    (∀ content : List Char,
        pyIn planMarker content = false ∨ pyIn workersMarker content = false →
        plannerParse content = ([], [])) ∧
    (∀ a b c : List Char,
        pyIn planMarker a = false →
        pyIn planMarker (b ++ (workersMarker ++ c)) = false →
        pyIn workersMarker b = false →
        (plannerParse (a ++ (planMarker ++ (b ++ (workersMarker ++ c))))).1 = pyStrip b) ∧
    plannerParse singleTokenTwoText.toList =
      ("Investigate the hosts".toList,
       [⟨"Discovery Specialist", "taskA"⟩, ⟨"Execution Specialist", "taskB"⟩]) := by
  refine ⟨?_, ?_, by decide⟩
  · intro content h
    rcases h with h | h <;> simp [plannerParse, h]
  · intro a b c ha hbc hb
    have hp : pyIn planMarker (a ++ (planMarker ++ (b ++ (workersMarker ++ c)))) = true :=
      (pyIn_iff_occurrence _ _).mpr ⟨a, b ++ (workersMarker ++ c), by simp⟩
    have hw : pyIn workersMarker (a ++ (planMarker ++ (b ++ (workersMarker ++ c)))) = true :=
      (pyIn_iff_occurrence _ _).mpr ⟨a ++ (planMarker ++ b), c, by simp⟩
    have h1 : pySplit planMarker (a ++ (planMarker ++ (b ++ (workersMarker ++ c))))
        = a :: [b ++ (workersMarker ++ c)] := by
      rw [pySplit_seam_plan a _ ha, pySplit_no_cut _ _ hbc]
    have h2 : pySplit workersMarker (b ++ (workersMarker ++ c))
        = b :: pySplit workersMarker c :=
      pySplit_seam_workers b c hb
    simp [plannerParse, hp, hw, h1, h2]

/-- C6 counterexample: on a well-formed two-line workers section whose role
labels are the multi-word canonical names the planner prompt instructs, the
parsed tasks are not the text after the colon: the trailing words of each role
label and the colon itself are captured into the task. -/
theorem C6_counterexample :
    (plannerParse canonicalTwoText.toList).2 =
      [⟨"Defense Evasion Specialist", "Evasion Specialist: find log clearing"⟩,
       ⟨"Discovery Specialist", "Specialist: scan hosts"⟩] ∧
    (plannerParse canonicalTwoText.toList).2.map WorkerDef.tasks ≠
      ["find log clearing", "scan hosts"] := by
  exact ⟨by decide, by decide⟩

theorem C6_witness :
    plannerParse "no markers".toList = ([], []) ∧
    (plannerParse ("x ".toList ++ (planMarker ++
        (" my plan ".toList ++ (workersMarker ++ " 1. A: t".toList))))).1 =
      pyStrip " my plan ".toList :=
  ⟨C6_plan_parser_behavior.1 _ (Or.inl (by decide)),
   C6_plan_parser_behavior.2.1 _ _ _ (by decide) (by decide) (by decide)⟩

/-! ## Run-level helper lemmas for claims C1 and C2 -/

theorem workerKey_one : workerKey 1 = "worker1_output" := rfl

theorem workerKey_two : workerKey 2 = "worker2_output" := rfl

theorem workerKey_three : workerKey 3 = "worker3_output" := rfl

theorem workerKey_four : workerKey 4 = "worker4_output" := rfl

theorem workerKey_five : workerKey 5 = "worker5_output" := rfl

/-- A worker node with a never-failing generation collaborator always returns
its single slot write, and writes the sentinel exactly when its slot has no
parsed assignment. -/
theorem workerNode_total (i : Nat) (hi1 : 1 ≤ i) (llm : String → Option String) (st : StateMap)
    (hw : ∀ p, (llm p).isSome = true) :
    ∃ v : SVal, workerNode i llm st = some [(workerKey i, v)] ∧
      ((getDefs st).length < i → v = sentinelOut) := by
  by_cases hle : i ≤ (getDefs st).length
  · have hidx : i - 1 < (getDefs st).length := by omega
    obtain ⟨wd, hwd⟩ : ∃ wd, (getDefs st)[i-1]? = some wd :=
      ⟨(getDefs st)[i-1], List.getElem?_eq_getElem hidx⟩
    obtain ⟨content, hcontent⟩ := Option.isSome_iff_exists.mp
      (hw (workerPrompt (getStr st "human_input") (getStr st "plan") wd.tasks
        (getStr st "log_content") (resolve_role wd.role)))
    refine ⟨.workerOut (resolve_role wd.role) content, ?_, by omega⟩
    simp [workerNode, hle, hwd, hcontent]
  · refine ⟨sentinelOut, ?_, fun _ => rfl⟩
    simp [workerNode, hle]

/-- Evaluation of the graph run from the results of its individual stages. -/
theorem runGraph_eq (o : Oracles) (init pu : StateMap) (u1 u2 u3 u4 u5 cu : Update)
    (ju : Update × List String)
    (h1 : plannerNode init o.planResp = some pu)
    (h2 : workerNode 1 (o.workerLLM 0) (applyUpdates init pu) = some u1)
    (h3 : workerNode 2 (o.workerLLM 1) (applyUpdates init pu) = some u2)
    (h4 : workerNode 3 (o.workerLLM 2) (applyUpdates init pu) = some u3)
    (h5 : workerNode 4 (o.workerLLM 3) (applyUpdates init pu) = some u4)
    (h6 : workerNode 5 (o.workerLLM 4) (applyUpdates init pu) = some u5)
    (h7 : critiqueNode (applyUpdates (applyUpdates init pu) (u1 ++ u2 ++ u3 ++ u4 ++ u5))
        o.critiqueResp = some cu)
    (h8 : judgeNode (applyUpdates (applyUpdates (applyUpdates init pu)
        (u1 ++ u2 ++ u3 ++ u4 ++ u5)) cu) o.judgeResp o.sink = some ju) :
    runGraph o init = some (applyUpdates (applyUpdates (applyUpdates (applyUpdates init pu)
      (u1 ++ u2 ++ u3 ++ u4 ++ u5)) cu) ju.1) := by
  simp only [runGraph, h1, h2, h3, h4, h5, h6, h7, h8,
    Option.bind_eq_bind, Option.some_bind, Option.pure_def]

/-- Characterization of a run in which every collaborator answers: the run
completes, the verdict is the judge answer, the evidence payload is preserved,
every one of the five slots is filled, and the slots beyond the parsed
assignment count hold the sentinel. -/
theorem runGraph_complete (o : Oracles) (hi lc : String) (mi : Nat) (pc cc jc : String)
    (hp : o.planResp = some pc)
    (hw : ∀ i p, ((o.workerLLM i) p).isSome = true)
    (hc : o.critiqueResp = some cc)
    (hj : o.judgeResp = some jc) :
    ∃ final, runGraph o (initState hi lc mi) = some final ∧
      getVal final "final_judgment" = some (.judgmentOut jc) ∧
      getVal final "log_content" = some (.str lc) ∧
      (∀ i, 1 ≤ i → i ≤ 5 → (getVal final (workerKey i)).isSome = true) ∧
      (∀ i, 1 ≤ i → i ≤ 5 → (plannerParse pc.toList).2.length < i →
        getVal final (workerKey i) = some sentinelOut) := by
  have hplanner : plannerNode (initState hi lc mi) o.planResp =
      some (initState hi lc mi ++
        [("plan", .str (String.mk (plannerParse pc.toList).1)),
         ("worker_definitions", .defList (plannerParse pc.toList).2)]) := by
    rw [hp]
    simp [plannerNode, initState, plannerExcludedKeys]
  have hs1eq : applyUpdates (initState hi lc mi)
      (initState hi lc mi ++
        [("plan", .str (String.mk (plannerParse pc.toList).1)),
         ("worker_definitions", .defList (plannerParse pc.toList).2)]) =
      [("human_input", .str hi), ("log_content", .str lc),
       ("max_iterations", .num mi), ("workers_to_revise", .numList []),
       ("iteration_count", .num 0),
       ("plan", .str (String.mk (plannerParse pc.toList).1)),
       ("worker_definitions", .defList (plannerParse pc.toList).2)] := by
    simp [applyUpdates, setKey, initState]
  obtain ⟨v1, hw1, hm1⟩ := workerNode_total 1 (by omega) (o.workerLLM 0) _ (hw 0)
  obtain ⟨v2, hw2, hm2⟩ := workerNode_total 2 (by omega) (o.workerLLM 1) _ (hw 1)
  obtain ⟨v3, hw3, hm3⟩ := workerNode_total 3 (by omega) (o.workerLLM 2) _ (hw 2)
  obtain ⟨v4, hw4, hm4⟩ := workerNode_total 4 (by omega) (o.workerLLM 3) _ (hw 3)
  obtain ⟨v5, hw5, hm5⟩ := workerNode_total 5 (by omega) (o.workerLLM 4) _ (hw 4)
  have hcrit : critiqueNode (applyUpdates (applyUpdates (initState hi lc mi)
      (initState hi lc mi ++
        [("plan", .str (String.mk (plannerParse pc.toList).1)),
         ("worker_definitions", .defList (plannerParse pc.toList).2)]))
      ([(workerKey 1, v1)] ++ [(workerKey 2, v2)] ++ [(workerKey 3, v3)] ++
        [(workerKey 4, v4)] ++ [(workerKey 5, v5)])) o.critiqueResp =
      some [("critique_output", .critiqueOut cc)] := by
    rw [hc]
    rfl
  have hjudge : judgeNode (applyUpdates (applyUpdates (applyUpdates (initState hi lc mi)
      (initState hi lc mi ++
        [("plan", .str (String.mk (plannerParse pc.toList).1)),
         ("worker_definitions", .defList (plannerParse pc.toList).2)]))
      ([(workerKey 1, v1)] ++ [(workerKey 2, v2)] ++ [(workerKey 3, v3)] ++
        [(workerKey 4, v4)] ++ [(workerKey 5, v5)]))
      [("critique_output", .critiqueOut cc)]) o.judgeResp o.sink =
      some ([("final_judgment", .judgmentOut jc)], persistFailureLog o.sink) := by
    rw [hj]
    rfl
  have hrun := runGraph_eq o (initState hi lc mi) _ _ _ _ _ _ _ _
    hplanner hw1 hw2 hw3 hw4 hw5 hcrit hjudge
  have hdefs : getDefs (applyUpdates (initState hi lc mi)
      (initState hi lc mi ++
        [("plan", .str (String.mk (plannerParse pc.toList).1)),
         ("worker_definitions", .defList (plannerParse pc.toList).2)])) =
      (plannerParse pc.toList).2 := by
    rw [hs1eq]
    simp [getDefs, getVal]
  rw [hdefs] at hm1 hm2 hm3 hm4 hm5
  refine ⟨_, hrun, ?_, ?_, ?_, ?_⟩
  · simp [applyUpdates, getVal_setKey, workerKey_one, workerKey_two, workerKey_three,
      workerKey_four, workerKey_five]
  · simp [applyUpdates, getVal_setKey, getVal, hs1eq, workerKey_one, workerKey_two,
      workerKey_three, workerKey_four, workerKey_five]
  · intro i h1i h2i
    interval_cases i <;>
      simp [applyUpdates, getVal_setKey, workerKey_one, workerKey_two, workerKey_three,
        workerKey_four, workerKey_five]
  · intro i h1i h2i h3i
    interval_cases i
    · simp [applyUpdates, getVal_setKey, workerKey_one, workerKey_two, workerKey_three,
        workerKey_four, workerKey_five]
      exact hm1 h3i
    · simp [applyUpdates, getVal_setKey, workerKey_one, workerKey_two, workerKey_three,
        workerKey_four, workerKey_five]
      exact hm2 h3i
    · simp [applyUpdates, getVal_setKey, workerKey_one, workerKey_two, workerKey_three,
        workerKey_four, workerKey_five]
      exact hm3 h3i
    · simp [applyUpdates, getVal_setKey, workerKey_one, workerKey_two, workerKey_three,
        workerKey_four, workerKey_five]
      exact hm4 h3i
    · simp [applyUpdates, getVal_setKey, workerKey_one, workerKey_two, workerKey_three,
        workerKey_four, workerKey_five]
      exact hm5 h3i

/-! ## Claim C1: worker failure handling -/

/-- C1 counterexample: a run in which the generation call of worker 1 raises
aborts with no Verdict at all — the exception propagates instead of being
replaced by a sentinel Finding. -/
theorem C1_counterexample :
    run_log_analysis "q" (.ok "log") 3 worker1FailOracles = none := by decide

/-- C1 (amended): the graceful degradation in the code covers only missing
assignments, not failing generation calls: when every generation call answers,
the run completes with a Verdict, all five slots are filled, and each slot
beyond the parsed assignment count holds the sentinel finding (role
`"Default"`, analysis `"No specific role defined."`); a failing worker call
instead aborts the whole run (see the counterexample). -/
theorem C1_sentinel_only_for_missing_assignment (hi : String) (rr : Except String String)
    (mi : Nat) (o : Oracles) (pc cc jc : String)
    (hp : o.planResp = some pc)
    (hw : ∀ i p, ((o.workerLLM i) p).isSome = true)
    (hc : o.critiqueResp = some cc)
    (hj : o.judgeResp = some jc) :
    ∃ final, run_log_analysis hi rr mi o = some final ∧
      (∀ i, 1 ≤ i → i ≤ 5 → (getVal final (workerKey i)).isSome = true) ∧
      (∀ i, 1 ≤ i → i ≤ 5 → (plannerParse pc.toList).2.length < i →
        getVal final (workerKey i) = some sentinelOut) ∧
      getVal final "final_judgment" = some (.judgmentOut jc) := by
  obtain ⟨final, h1, h2, _, h4, h5⟩ :=
    runGraph_complete o hi (read_crowdstrike_data rr) mi pc cc jc hp hw hc hj
  exact ⟨final, h1, h4, h5, h2⟩

theorem C1_witness :
    ∃ final, run_log_analysis "q" (.ok "log") 3 allGoodOracles = some final ∧
      (∀ i, 1 ≤ i → i ≤ 5 → (getVal final (workerKey i)).isSome = true) ∧
      (∀ i, 1 ≤ i → i ≤ 5 → (plannerParse onePlanText.toList).2.length < i →
        getVal final (workerKey i) = some sentinelOut) ∧
      getVal final "final_judgment" = some (.judgmentOut "verdict") :=
  C1_sentinel_only_for_missing_assignment "q" (.ok "log") 3 allGoodOracles
    onePlanText "consensus" "verdict" rfl (fun _ _ => rfl) rfl rfl

/-! ## Claim C2: evidence read failure -/

/-- C2 counterexample: with a failing evidence source the run does not fail
before worker dispatch — the workers run (slot 1 holds an ordinary finding)
and the caller receives a Verdict. -/
theorem C2_counterexample :
    (run_log_analysis "q" (.error "file missing") 3 allGoodOracles).bind
        (fun st => getVal st "final_judgment") = some (.judgmentOut "verdict") ∧
    (run_log_analysis "q" (.error "file missing") 3 allGoodOracles).bind
        (fun st => getVal st (workerKey 1)) =
      some (.workerOut "Discovery Specialist" "found something") :=
  ⟨by decide, by decide⟩

/-- C2 (amended): an evidence read failure is caught inside the reader, which
returns the error message as the evidence payload; the run then proceeds
normally through worker dispatch, and the caller receives an ordinary Verdict
computed from that error text instead of a run failure. -/
theorem C2_read_failure_degrades_not_fails (hi e : String) (mi : Nat) (o : Oracles)
    (pc cc jc : String)
    (hp : o.planResp = some pc)
    (hw : ∀ i p, ((o.workerLLM i) p).isSome = true)
    (hc : o.critiqueResp = some cc)
    (hj : o.judgeResp = some jc) :
    ∃ final, run_log_analysis hi (.error e) mi o = some final ∧
      getVal final "log_content" = some (.str ("Error reading CrowdStrike data: " ++ e)) ∧
      getVal final "final_judgment" = some (.judgmentOut jc) := by
  obtain ⟨final, h1, h2, h3, _, _⟩ :=
    runGraph_complete o hi ("Error reading CrowdStrike data: " ++ e) mi pc cc jc hp hw hc hj
  exact ⟨final, h1, h3, h2⟩

theorem C2_witness :
    ∃ final, run_log_analysis "q" (.error "boom") 3 allGoodOracles = some final ∧
      getVal final "log_content" = some (.str ("Error reading CrowdStrike data: " ++ "boom")) ∧
      getVal final "final_judgment" = some (.judgmentOut "verdict") :=
  C2_read_failure_degrades_not_fails "q" "boom" 3 allGoodOracles
    onePlanText "consensus" "verdict" rfl (fun _ _ => rfl) rfl rfl

end MultiAgentDemo
